import Mathlib

/-!
Verification development for the `DependencyExtractor` engine
(file `dependency-tree.js` of the repository): a shallow embedding of
its path resolution, exclusion filtering, and depth-bounded, cycle-safe
recursive traversal, together with theorems settling the specification
claims about them.

Filesystem access (`fs.existsSync`, `fs.statSync`, `fs.readFileSync`),
host-runtime module lookup (`require.resolve`) and the regex-based
scanner `parseImports` are modelled as oracles in a `World` record: no
claim concerns their internals, only how their answers are consumed.
Every other function is translated clause by clause from the source.
-/

namespace DepTree

/-! ## String primitives

`String.startsWith`, `String.splitOn` and `String.isPrefixOf` do not
reduce inside the kernel, so the few string operations the source uses
are re-implemented over `String.data`; each mirrors the JS / Node
operation named in its comment. -/

/-- JS `String.prototype.startsWith`. -/
def strStartsWith (s p : String) : Bool :=
  p.data.isPrefixOf s.data

/-- Character-splitting core of `String.split`. -/
def splitOnCharAux (c : Char) : List Char → List Char → List (List Char)
  | [], acc => [acc.reverse]
  | x :: xs, acc =>
    if x = c then acc.reverse :: splitOnCharAux c xs []
    else splitOnCharAux c xs (x :: acc)

/-- JS `String.prototype.split` with a one-character separator. -/
def strSplitOn (c : Char) (s : String) : List String :=
  (splitOnCharAux c s.data []).map (fun l => ⟨l⟩)

/-- JS `String.prototype.toLowerCase` (ASCII, as used on extensions). -/
def strToLower (s : String) : String :=
  ⟨s.data.map Char.toLower⟩

/-! ## Path model

Node's `path` module on POSIX-style absolute inputs. `path.resolve` and
`path.join` split on `/` and collapse empty, `.` and `..` segments; we
model exactly that for absolute bases (every path the engine handles is
absolute: the traversal resolves its argument against the process `cwd`
first).  `path.relative` is modelled for the case where the target lies
under the base, which is the only case any claim touches. -/

/-- Segment normalization of Node's path code: drop empty and `.`
segments, let `..` consume the previous segment (at the root it is
dropped, matching POSIX `path.resolve`). -/
def normSegs (segs : List String) : List String :=
  segs.foldl
    (fun acc seg =>
      if seg = "" ∨ seg = "." then acc
      else if seg = ".." then acc.dropLast
      else acc ++ [seg])
    []

/-- Rebuild an absolute path from normalized segments. -/
def joinSegs (segs : List String) : String :=
  "/" ++ String.intercalate "/" segs

/-- Normalize an absolute path (collapse `//`, `.` and `..`). -/
def normalizeAbs (p : String) : String :=
  joinSegs (normSegs (strSplitOn '/' p))

/-- Models Node `path.resolve(base, rel)` with an absolute `base`:
an absolute `rel` wins, otherwise `rel` is appended, and the result is
segment-normalized. -/
def pathResolve (base rel : String) : String :=
  if strStartsWith rel "/" then normalizeAbs rel
  else normalizeAbs (base ++ "/" ++ rel)

/-- Models Node `path.join(a, b)` for an absolute `a`. -/
def pathJoin (a b : String) : String :=
  normalizeAbs (a ++ "/" ++ b)

/-- Models Node `path.dirname` for an absolute path. -/
def dirname (p : String) : String :=
  joinSegs (normSegs (strSplitOn '/' p)).dropLast

/-- Models Node `path.relative(base, p)` for the case `p` lies strictly
under `base`; other cases (which would produce `..`-prefixed results)
return `p` unchanged, and no claim exercises them. -/
def pathRelative (base p : String) : String :=
  if strStartsWith p (base ++ "/") then p.drop (base.length + 1) else p

/-- Models Node `path.extname`: the suffix of the last path segment from
its final dot, empty for dotless or dotfile names. -/
def extname (p : String) : String :=
  let base := ((strSplitOn '/' p).getLast? ).getD p
  let parts := strSplitOn '.' base
  if parts.length ≤ 1 then ""
  else if parts.length = 2 ∧ parts.headI = "" then ""
  else "." ++ ((parts.getLast? ).getD "")

/-! ## Configuration and oracles -/

/-- The extractor options fixed in the constructor (part_000 lines
515-565).  `maxDepth` is `none` for `Infinity`; it is an `Int` because
`options.maxDepth` can be any number and `currentDepth > this.maxDepth`
is the only use.  Exclude patterns are regexes in the source; they are
modelled as string predicates.  The `debug` flag only drives logging and
is omitted. -/
structure Config where
  maxDepth : Option Int
  rootDir : String
  includeExternal : Bool
  maxContentLength : Nat
  extensions : List String
  excludePatterns : List (String → Bool)
  svelteAliases : List (String × String)

/-- The check `currentDepth > this.maxDepth` (line 667); always false for
`Infinity`. -/
def Config.depthExceeded (cfg : Config) (d : Nat) : Bool :=
  match cfg.maxDepth with
  | none => false
  | some m => (d : Int) > m

/-- Default extension priority list (part_000 lines 524-534). -/
def defaultExtensions : List String :=
  [".ts", ".tsx", ".js", ".jsx", ".json", ".mjs", ".cjs", ".d.ts", ".svelte"]

/-- Default Svelte alias table, in insertion order (lines 559-564). -/
def defaultSvelteAliases : List (String × String) :=
  [("$lib", "src/lib"), ("$app", "@sveltejs/kit"), ("$env", "@sveltejs/kit"),
   ("$service-worker", "@sveltejs/kit")]

/-- Host environment oracle: filesystem and runtime module lookup, plus
the regex import scanner.  `statSync` / `readFileSync` return `none`
where the source call would throw.  `requireResolve spec dir` models
`require.resolve(spec, \x7b paths: [dir] \x7d)`; `requireResolveBare`
models `require.resolve(target)`.  `parseImports content fileName`
stands for the scanner of lines 792-909, which no claim concerns. -/
structure World where
  cwd : String
  existsSync : String → Bool
  isFile : String → Bool
  statSync : String → Option Nat
  readFileSync : String → Option String
  parseImports : String → String → List String
  requireResolve : String → String → Option String
  requireResolveBare : String → Option String

/-! ## PathResolver (part_000 lines 926-1215) -/

/-- `shouldExclude` (lines 1213-1215): some configured pattern matches. -/
def shouldExclude (cfg : Config) (filePath : String) : Bool :=
  cfg.excludePatterns.any (fun pattern => pattern filePath)

/-- Extension loop of `tryResolveWithExtensions` (lines 1169-1185):
first extension whose appended candidate exists and is not excluded. -/
def tryExtsLoop (cfg : Config) (w : World) (basePath : String) :
    List String → Option String
  | [] => none
  | ext :: rest =>
    let withExt := basePath ++ ext
    if w.existsSync withExt && !shouldExclude cfg withExt then some withExt
    else tryExtsLoop cfg w basePath rest

/-- Index-file loop of `tryResolveWithExtensions` (lines 1187-1202). -/
def tryIndexLoop (cfg : Config) (w : World) (basePath : String) :
    List String → Option String
  | [] => none
  | ext :: rest =>
    let indexPath := pathJoin basePath ("index" ++ ext)
    if w.existsSync indexPath && !shouldExclude cfg indexPath then some indexPath
    else tryIndexLoop cfg w basePath rest

/-- `tryResolveWithExtensions` (lines 1143-1211): the exact path wins only
if it exists, is not excluded and is a regular file; then each extension
in priority order; then each `index.<ext>` in the same order. -/
def tryResolveWithExtensions (cfg : Config) (w : World) (basePath : String) :
    Option String :=
  if w.existsSync basePath && !shouldExclude cfg basePath && w.isFile basePath then
    some basePath
  else
    match tryExtsLoop cfg w basePath cfg.extensions with
    | some r => some r
    | none => tryIndexLoop cfg w basePath cfg.extensions

/-- `isSvelteAlias` (lines 994-998): plain string-prefix test against the
alias keys, with no segment-boundary check. -/
def isSvelteAlias (cfg : Config) (importPath : String) : Bool :=
  cfg.svelteAliases.any (fun a => strStartsWith importPath a.1)

/-- Entry loop of `resolveSvelteAlias` (lines 1000-1032), over the alias
table in insertion order. -/
def resolveSvelteAliasAux (cfg : Config) (w : World) (importPath : String) :
    List (String × String) → Option String
  | [] => none
  | (key, target) :: rest =>
    if strStartsWith importPath key then
      if strStartsWith target "@sveltejs/kit" then
        if cfg.includeExternal then w.requireResolveBare target else none
      else
        tryResolveWithExtensions cfg w
          (pathResolve cfg.rootDir (target ++ importPath.drop key.length))
    else resolveSvelteAliasAux cfg w importPath rest

/-- `resolveSvelteAlias` (lines 1000-1032). -/
def resolveSvelteAlias (cfg : Config) (w : World) (importPath : String) :
    Option String :=
  resolveSvelteAliasAux cfg w importPath cfg.svelteAliases

/-- The fixed project-prefix list of `isProjectAbsoluteImport`
(lines 1036-1068). -/
def projectPrefixes : List String :=
  ["src/", "app/", "lib/", "libs/", "packages/", "modules/", "components/",
   "services/", "utils/", "helpers/", "shared/", "core/", "common/",
   "config/", "assets/", "styles/", "types/", "interfaces/", "models/",
   "entities/", "dtos/", "guards/", "middleware/", "decorators/", "pipes/",
   "filters/", "interceptors/", "controllers/", "providers/",
   "repositories/", "schemas/"]

/-- `isProjectAbsoluteImport` (lines 1034-1071). -/
def isProjectAbsoluteImport (importPath : String) : Bool :=
  projectPrefixes.any (fun p => strStartsWith importPath p)

/-- Candidate base directories of `resolveProjectAbsoluteImport`
(lines 1075-1082), in priority order. -/
def possibleRoots (cfg : Config) : List String :=
  [cfg.rootDir, pathJoin cfg.rootDir "app", pathJoin cfg.rootDir "src",
   pathJoin cfg.rootDir "..", pathJoin cfg.rootDir "../app",
   dirname cfg.rootDir]

/-- Root loop of `resolveProjectAbsoluteImport` (lines 1092-1119): skip
nonexistent roots, return the first successful extension resolution. -/
def resolveProjAbsAux (cfg : Config) (w : World) (importPath : String) :
    List String → Option String
  | [] => none
  | root :: rest =>
    if !w.existsSync root then resolveProjAbsAux cfg w importPath rest
    else
      match tryResolveWithExtensions cfg w (pathResolve root importPath) with
      | some r => some r
      | none => resolveProjAbsAux cfg w importPath rest

/-- `resolveProjectAbsoluteImport` (lines 1073-1127). -/
def resolveProjectAbsoluteImport (cfg : Config) (w : World)
    (importPath : String) : Option String :=
  resolveProjAbsAux cfg w importPath (possibleRoots cfg)

/-- `resolveRelativeImport` (lines 1129-1141): resolve against the
directory of the originating file, then extension resolution. -/
def resolveRelativeImport (cfg : Config) (w : World)
    (importPath fromFile : String) : Option String :=
  tryResolveWithExtensions cfg w (pathResolve (dirname fromFile) importPath)

/-- `resolveImportPath` (lines 926-992): the strategy-ordered dispatcher.
Each strategy's result is returned directly, so a strategy that claims a
specifier but fails yields `none` with no fallthrough. -/
def resolveImportPath (cfg : Config) (w : World)
    (importPath fromFile : String) : Option String :=
  if isSvelteAlias cfg importPath then
    resolveSvelteAlias cfg w importPath
  else if isProjectAbsoluteImport importPath then
    resolveProjectAbsoluteImport cfg w importPath
  else if strStartsWith importPath "." || strStartsWith importPath "/" then
    resolveRelativeImport cfg w importPath fromFile
  else if !cfg.includeExternal then none
  else w.requireResolve importPath (dirname fromFile)

/-! ## GraphBuilder data model (part_000 lines 567-790)

JS nodes are plain objects whose field set varies by construction site;
absent fields are modelled as `none` (`circular` and `external` as plain
`Bool`, since consumers only test truthiness).  One constructor per
construction site in the source keeps the correspondence reviewable. -/

/-- A node of the produced dependency tree. -/
inductive FileNode where
  | mk (path : String) (absolutePath : Option String)
      (originalImport : Option String) (existsF : Option Bool)
      (error : Option String) (circular : Bool) (external : Bool)
      (depth : Nat) (size : Option Nat) (importCount : Option Nat)
      (content : Option String) (isText : Option Bool)
      (skipReason : Option String) (dependencies : List FileNode)

def FileNode.path : FileNode → String
  | .mk p _ _ _ _ _ _ _ _ _ _ _ _ _ => p

def FileNode.absolutePath : FileNode → Option String
  | .mk _ a _ _ _ _ _ _ _ _ _ _ _ _ => a

def FileNode.originalImport : FileNode → Option String
  | .mk _ _ o _ _ _ _ _ _ _ _ _ _ _ => o

def FileNode.existsF : FileNode → Option Bool
  | .mk _ _ _ e _ _ _ _ _ _ _ _ _ _ => e

def FileNode.error : FileNode → Option String
  | .mk _ _ _ _ e _ _ _ _ _ _ _ _ _ => e

def FileNode.circular : FileNode → Bool
  | .mk _ _ _ _ _ c _ _ _ _ _ _ _ _ => c

def FileNode.external : FileNode → Bool
  | .mk _ _ _ _ _ _ x _ _ _ _ _ _ _ => x

def FileNode.depth : FileNode → Nat
  | .mk _ _ _ _ _ _ _ d _ _ _ _ _ _ => d

def FileNode.size : FileNode → Option Nat
  | .mk _ _ _ _ _ _ _ _ s _ _ _ _ _ => s

def FileNode.importCount : FileNode → Option Nat
  | .mk _ _ _ _ _ _ _ _ _ i _ _ _ _ => i

def FileNode.content : FileNode → Option String
  | .mk _ _ _ _ _ _ _ _ _ _ c _ _ _ => c

def FileNode.dependencies : FileNode → List FileNode
  | .mk _ _ _ _ _ _ _ _ _ _ _ _ _ d => d

/-- The circular leaf returned by the visited check at entry
(lines 673-681). -/
def circularNode (path abs : String) (d : Nat) : FileNode :=
  .mk path (some abs) none none none true false d none none none none none []

/-- The `exists: false` node for a missing file (lines 684-693). -/
def notFoundNode (path abs : String) (d : Nat) : FileNode :=
  .mk path (some abs) none (some false) (some "File not found") false false d
    none none none none none []

/-- The circular leaf pushed at edge discovery (lines 733-740). -/
def circularEdgeNode (path abs originalImport : String) (d : Nat) : FileNode :=
  .mk path (some abs) (some originalImport) none none true false d
    none none none none none []

/-- The external leaf pushed when the resolver returned `null` and
external inclusion is on (lines 753-761): `absolutePath: null`. -/
def externalNode (importPath : String) (d : Nat) : FileNode :=
  .mk importPath none (some importPath) none none false true d
    none none none none none []

/-- The fully-expanded node (lines 767-778). -/
def fullNode (path abs : String) (d : Nat) (deps : List FileNode)
    (size importCount : Nat) (skipReason : Option String) (content : String)
    (isText : Bool) : FileNode :=
  .mk path (some abs) none (some true) none false false d (some size)
    (some importCount) (some content) (some isText) skipReason deps

/-- The spread `\x7b ...childTree, originalImport: importPath \x7d` of
lines 747-750. -/
def setOriginalImport (n : FileNode) (importPath : String) : FileNode :=
  match n with
  | .mk p a _ e er c x d s i co t sk dep =>
    .mk p a (some importPath) e er c x d s i co t sk dep

/-- The mutable per-instance state (lines 552-556): visited table,
circular-edge set, all-files index, unresolved-specifier set.  JS `Map`
and `Set` are modelled by association lists / lists with first-match
lookup and insertion-order `add`. -/
structure TState where
  visited : List (String × Nat)
  circularDeps : List String
  unresolved : List String
  allFiles : List (String × FileNode)

/-- The fresh state built by the constructor. -/
def initState : TState := ⟨[], [], [], []⟩

/-- `Map.get` on the visited table: first matching entry. -/
def vLookup : List (String × Nat) → String → Option Nat
  | [], _ => none
  | e :: rest, k => if e.1 = k then some e.2 else vLookup rest k

/-- `Map.set` on the visited table: update the existing entry in place
(JS `Map.set` keeps the original insertion position) or append a new
one. -/
def vSet : List (String × Nat) → String → Nat → List (String × Nat)
  | [], k, v => [(k, v)]
  | e :: rest, k, v => if e.1 = k then (k, v) :: rest else e :: vSet rest k v

/-- `Map.has` on the visited table. -/
def vContains (l : List (String × Nat)) (k : String) : Bool :=
  (vLookup l k).isSome

/-- `Set.add`: append if not already present. -/
def setAdd (l : List String) (x : String) : List String :=
  if x ∈ l then l else l ++ [x]

/-- `Map.set` on the all-files index. -/
def afSet : List (String × FileNode) → String → FileNode →
    List (String × FileNode)
  | [], k, v => [(k, v)]
  | e :: rest, k, v => if e.1 = k then (k, v) :: rest else e :: afSet rest k v

/-- Result record of `getFileInfo` (lines 1217-1277). -/
structure FileInfo where
  size : Nat
  content : String
  isText : Bool
  skipReason : Option String

/-- Binary extension list of `isBinaryFile` (lines 1280-1310). -/
def binaryExtensions : List String :=
  [".png", ".jpg", ".jpeg", ".gif", ".bmp", ".ico", ".svg", ".pdf", ".zip",
   ".tar", ".gz", ".rar", ".7z", ".exe", ".dll", ".so", ".dylib", ".woff",
   ".woff2", ".ttf", ".eot", ".mp3", ".mp4", ".avi", ".mov", ".webm",
   ".node", ".bin", ".lock"]

/-- `isBinaryFile` (lines 1279-1314). -/
def isBinaryFile (filePath : String) : Bool :=
  binaryExtensions.contains (strToLower (extname filePath))

/-- `getFileInfo` (lines 1217-1277): content gating.  The source
interpolates byte counts and the caught message into the skip reasons
via `formatBytes`; the modelled reasons keep the fixed prefix only.  A
`statSync` throw is caught into a zero-size record. -/
def getFileInfo (cfg : Config) (w : World) (filePath : String) : FileInfo :=
  match w.statSync filePath with
  | none => ⟨0, "", false, none⟩
  | some size =>
    if isBinaryFile filePath then ⟨size, "", false, some "Binary file"⟩
    else if size > cfg.maxContentLength * 4 then
      ⟨size, "", false, some "File too large"⟩
    else
      match w.readFileSync filePath with
      | some c => ⟨size, c, true, none⟩
      | none => ⟨size, "", false, some "Read error"⟩

/-! ## GraphBuilder traversal (part_000 lines 662-790)

The JS recursion has no a priori termination bound (with an unlimited
depth and ever-fresh paths it would not terminate), so the embedding
carries explicit fuel; every theorem either supplies enough fuel or
holds for all fuel. -/

/-- One iteration of the import loop (lines 714-765), parameterized by
the recursive expansion of an unvisited child.  A resolved import
already present in the visited table (at any depth) records a cycle
edge and pushes a circular leaf; an unvisited one is expanded at
`depth+1` and its node (if any) is pushed with `originalImport` set; a
`null` resolution pushes an external leaf when external inclusion is
on, and otherwise records the specifier as unresolved. -/
def processImport (expandChild : String → Nat → TState → Option FileNode × TState)
    (cfg : Config) (w : World) (resolvedPath relativePath : String)
    (currentDepth : Nat) (acc : List FileNode × TState)
    (importPath : String) : List FileNode × TState :=
  let deps := acc.1
  let s := acc.2
  match resolveImportPath cfg w importPath resolvedPath with
  | some resolvedImport =>
    if vContains s.visited resolvedImport then
      let circularRef :=
        relativePath ++ " -> " ++ pathRelative cfg.rootDir resolvedImport
      (deps ++ [circularEdgeNode (pathRelative cfg.rootDir resolvedImport)
          resolvedImport importPath (currentDepth + 1)],
       { s with circularDeps := setAdd s.circularDeps circularRef })
    else
      match expandChild resolvedImport (currentDepth + 1) s with
      | (some childTree, s1) =>
        (deps ++ [setOriginalImport childTree importPath], s1)
      | (none, s1) => (deps, s1)
  | none =>
    if cfg.includeExternal then
      (deps ++ [externalNode importPath (currentDepth + 1)], s)
    else (deps, { s with unresolved := setAdd s.unresolved importPath })

/-- The body of `extractDependencies` (lines 662-790) for one step, with
the recursive expansion of children abstracted as `expandChild`
(supplied with one unit of fuel less by `extractDeps` below).  Order of
checks as in the source: depth bound (`null`), visited-at-`≤`-depth
(circular leaf), existence (`exists: false` node); otherwise mark
visited, gate content, scan imports (`parseImports` returns `[]` on
empty content, line 793), process each import in order, and register
the result in the all-files index. -/
def extractDepsStep (cfg : Config) (w : World)
    (expandChild : String → Nat → TState → Option FileNode × TState)
    (filePath : String) (currentDepth : Nat) (s : TState) :
    Option FileNode × TState :=
  let resolvedPath := pathResolve w.cwd filePath
  let relativePath := pathRelative cfg.rootDir resolvedPath
  if cfg.depthExceeded currentDepth then (none, s)
  else
    let isCirc :=
      match vLookup s.visited resolvedPath with
      | some d0 => decide (d0 ≤ currentDepth)
      | none => false
    if isCirc then
      (some (circularNode relativePath resolvedPath currentDepth), s)
    else if !w.existsSync resolvedPath then
      (some (notFoundNode relativePath resolvedPath currentDepth), s)
    else
      let s1 := { s with visited := vSet s.visited resolvedPath currentDepth }
      let fileInfo := getFileInfo cfg w resolvedPath
      let imports :=
        if fileInfo.content = "" then []
        else w.parseImports fileInfo.content relativePath
      let folded :=
        imports.foldl
          (processImport expandChild cfg w resolvedPath relativePath
            currentDepth)
          ([], s1)
      let result :=
        fullNode relativePath resolvedPath currentDepth folded.1
          fileInfo.size imports.length fileInfo.skipReason fileInfo.content
          fileInfo.isText
      (some result,
       { folded.2 with allFiles := afSet folded.2.allFiles resolvedPath result })

/-- Fuelled `extractDependencies`, by primitive recursion on the fuel so
that concrete runs reduce inside the kernel. -/
def extractDeps (cfg : Config) (w : World) (fuel : Nat) :
    String → Nat → TState → Option FileNode × TState :=
  Nat.rec (motive := fun _ => String → Nat → TState → Option FileNode × TState)
    (fun _ _ s => (none, s))
    (fun _ ih filePath currentDepth s =>
      extractDepsStep cfg w (fun p d st => ih p d st) filePath currentDepth s)
    fuel

/-- `analyze` (lines 567-586): run the traversal at depth 0 and fail
when it yields no tree.  Root auto-detection (`autoDetectProjectRoot`)
only runs when `rootDir` was left unset and is not modelled; `rootDir`
is taken as configured. -/
def analyze (cfg : Config) (w : World) (fuel : Nat) (filePath : String)
    (s : TState) : Except String FileNode × TState :=
  match extractDeps cfg w fuel filePath 0 s with
  | (some tree, s1) => (.ok tree, s1)
  | (none, s1) => (.error "Could not analyze the file", s1)

/-! ## Concrete scenarios

Small worlds used by counterexamples and witnesses.  File contents are
one-letter tags and `parseImports` is keyed on them, standing for source
files whose scanned import lists are as shown. -/

/-- A world with an empty filesystem. -/
def w0 : World :=
  ⟨"/", fun _ => false, fun _ => false, fun _ => none, fun _ => none,
   fun _ _ => [], fun _ _ => none, fun _ => none⟩

/-- Baseline configuration: unlimited depth, root `/p`, externals off,
default extensions and aliases, no exclusion patterns. -/
def cfgP : Config :=
  ⟨none, "/p", false, 100000, defaultExtensions, [], defaultSvelteAliases⟩

/-- Configuration whose `maxDepth` is negative (`options.maxDepth = -1`),
making the depth bound fail already at the root. -/
def cfgNeg : Config :=
  ⟨some (-1), "/p", false, 100000, defaultExtensions, [], defaultSvelteAliases⟩

/-- Configuration with a depth limit of 1. -/
def cfgDepth1 : Config :=
  ⟨some 1, "/p", false, 100000, defaultExtensions, [], defaultSvelteAliases⟩

/-- Configuration with external inclusion enabled. -/
def cfgExt : Config :=
  ⟨none, "/p", true, 100000, defaultExtensions, [], defaultSvelteAliases⟩

/-- Configuration that excludes every path. -/
def cfgExclAll : Config :=
  ⟨none, "/p", false, 100000, defaultExtensions, [fun _ => true],
   defaultSvelteAliases⟩

/-- Configuration matching the `claim7` family at its witness instance. -/
def libCfg (md : Option Int) (R : String) (inc : Bool) (mcl : Nat)
    (ps : List (String → Bool)) : Config :=
  ⟨md, R, inc, mcl, defaultExtensions, ps, [("$lib", "src/lib")]⟩

/-- Diamond world: `/p/r.ts` imports `./a` and `./x`; `/p/a.ts` imports
`./b`; `/p/b.ts` imports `./x`; `/p/x.ts` imports nothing.  The file
`x.ts` is therefore fully expanded at depth 3 (under `b.ts`) before the
root's own edge to it is processed at depth 1. -/
def w1 : World :=
  ⟨"/p",
   fun p => ["/p/r.ts", "/p/a.ts", "/p/b.ts", "/p/x.ts"].contains p,
   fun p => ["/p/r.ts", "/p/a.ts", "/p/b.ts", "/p/x.ts"].contains p,
   fun p => if ["/p/r.ts", "/p/a.ts", "/p/b.ts", "/p/x.ts"].contains p then
     some 1 else none,
   fun p => if p = "/p/r.ts" then some "R" else if p = "/p/a.ts" then some "A"
     else if p = "/p/b.ts" then some "B"
     else if p = "/p/x.ts" then some "X" else none,
   fun c _ => if c = "R" then ["./a", "./x"] else if c = "A" then ["./b"]
     else if c = "B" then ["./x"] else [],
   fun _ _ => none,
   fun _ => none⟩

/-- World for the missing-root scenario: an empty filesystem under
process directory `/p`. -/
def w2 : World :=
  ⟨"/p", fun _ => false, fun _ => false, fun _ => none, fun _ => none,
   fun _ _ => [], fun _ _ => none, fun _ => none⟩

/-- External-import world: `/p/r.ts` imports the bare specifiers `pkg`
(which host resolution finds at `/p/node_modules/pkg/index.js`, a real
file with no further imports) and `ghost` (which host resolution cannot
find). -/
def w3 : World :=
  ⟨"/p",
   fun p => ["/p/r.ts", "/p/node_modules/pkg/index.js"].contains p,
   fun p => ["/p/r.ts", "/p/node_modules/pkg/index.js"].contains p,
   fun p => if ["/p/r.ts", "/p/node_modules/pkg/index.js"].contains p then
     some 1 else none,
   fun p => if p = "/p/r.ts" then some "R"
     else if p = "/p/node_modules/pkg/index.js" then some "P" else none,
   fun c _ => if c = "R" then ["pkg", "ghost"] else [],
   fun sp dir => if sp = "pkg" ∧ dir = "/p" then
     some "/p/node_modules/pkg/index.js" else none,
   fun _ => none⟩

/-- One-file world: `/p/a.ts` exists and imports nothing. -/
def w4 : World :=
  ⟨"/p",
   fun p => p = "/p/a.ts",
   fun p => p = "/p/a.ts",
   fun p => if p = "/p/a.ts" then some 1 else none,
   fun p => if p = "/p/a.ts" then some "" else none,
   fun _ _ => [],
   fun _ _ => none,
   fun _ => none⟩

/-- A state whose visited table holds `/p/a.ts` at depth 2, as left
behind by a previous `build` on the same instance in which `a.ts` sat
at depth 2. -/
def s4 : TState := ⟨[("/p/a.ts", 2)], [], [], []⟩

/-- World where `/p/x` exists as a regular file. -/
def w6 : World :=
  ⟨"/p", fun p => p = "/p/x", fun p => p = "/p/x",
   fun p => if p = "/p/x" then some 1 else none,
   fun p => if p = "/p/x" then some "" else none,
   fun _ _ => [], fun _ _ => none, fun _ => none⟩

/-- World where only `/proj/src/lib/x.ts` exists. -/
def w7a : World :=
  ⟨"/proj", fun p => p = "/proj/src/lib/x.ts",
   fun p => p = "/proj/src/lib/x.ts",
   fun p => if p = "/proj/src/lib/x.ts" then some 1 else none,
   fun p => if p = "/proj/src/lib/x.ts" then some "" else none,
   fun _ _ => [], fun _ _ => none, fun _ => none⟩

/-- World where only `/proj/src/lib/x/index.ts` exists. -/
def w7b : World :=
  ⟨"/proj", fun p => p = "/proj/src/lib/x/index.ts",
   fun p => p = "/proj/src/lib/x/index.ts",
   fun p => if p = "/proj/src/lib/x/index.ts" then some 1 else none,
   fun p => if p = "/proj/src/lib/x/index.ts" then some "" else none,
   fun _ _ => [], fun _ _ => none, fun _ => none⟩

/-- Chain world: `/p/r.ts` imports `./a`; `/p/a.ts` imports `./b`;
`/p/b.ts` imports nothing. -/
def w8 : World :=
  ⟨"/p",
   fun p => ["/p/r.ts", "/p/a.ts", "/p/b.ts"].contains p,
   fun p => ["/p/r.ts", "/p/a.ts", "/p/b.ts"].contains p,
   fun p => if ["/p/r.ts", "/p/a.ts", "/p/b.ts"].contains p then some 1
     else none,
   fun p => if p = "/p/r.ts" then some "R" else if p = "/p/a.ts" then some "A"
     else if p = "/p/b.ts" then some "B" else none,
   fun c _ => if c = "R" then ["./a"] else if c = "A" then ["./b"] else [],
   fun _ _ => none,
   fun _ => none⟩

/-! ## Theorems -/

lemma tryExtsLoop_not_excluded (cfg : Config) (w : World) (basePath : String) :
    ∀ (l : List String) (r : String), tryExtsLoop cfg w basePath l = some r →
      shouldExclude cfg r = false := by
  intro l
  induction l with
  | nil => intro r h; simp [tryExtsLoop] at h
  | cons ext rest ih =>
    intro r h
    by_cases hc : (w.existsSync (basePath ++ ext) &&
        !shouldExclude cfg (basePath ++ ext)) = true
    · rw [tryExtsLoop, if_pos hc] at h
      cases h
      exact (Bool.not_eq_true' _).mp (Bool.and_elim_right hc)
    · rw [tryExtsLoop, if_neg hc] at h
      exact ih r h

lemma tryIndexLoop_not_excluded (cfg : Config) (w : World) (basePath : String) :
    ∀ (l : List String) (r : String), tryIndexLoop cfg w basePath l = some r →
      shouldExclude cfg r = false := by
  intro l
  induction l with
  | nil => intro r h; simp [tryIndexLoop] at h
  | cons ext rest ih =>
    intro r h
    by_cases hc : (w.existsSync (pathJoin basePath ("index" ++ ext)) &&
        !shouldExclude cfg (pathJoin basePath ("index" ++ ext))) = true
    · rw [tryIndexLoop, if_pos hc] at h
      cases h
      exact (Bool.not_eq_true' _).mp (Bool.and_elim_right hc)
    · rw [tryIndexLoop, if_neg hc] at h
      exact ih r h

lemma tryExtsLoop_none_of (cfg : Config) (w : World) (basePath : String) :
    ∀ (l : List String),
      (∀ ext ∈ l, w.existsSync (basePath ++ ext) = false ∨
        shouldExclude cfg (basePath ++ ext) = true) →
      tryExtsLoop cfg w basePath l = none := by
  intro l
  induction l with
  | nil => intro _; rfl
  | cons ext rest ih =>
    intro h
    have hcond : (w.existsSync (basePath ++ ext) &&
        !shouldExclude cfg (basePath ++ ext)) = false := by
      rcases h ext (List.mem_cons_self _ _) with h1 | h1 <;> simp [h1]
    rw [tryExtsLoop, hcond]
    simp only [Bool.false_eq_true, if_false]
    exact ih (fun e he => h e (List.mem_cons_of_mem _ he))

lemma tryIndexLoop_none_of (cfg : Config) (w : World) (basePath : String) :
    ∀ (l : List String),
      (∀ ext ∈ l, w.existsSync (pathJoin basePath ("index" ++ ext)) = false ∨
        shouldExclude cfg (pathJoin basePath ("index" ++ ext)) = true) →
      tryIndexLoop cfg w basePath l = none := by
  intro l
  induction l with
  | nil => intro _; rfl
  | cons ext rest ih =>
    intro h
    have hcond : (w.existsSync (pathJoin basePath ("index" ++ ext)) &&
        !shouldExclude cfg (pathJoin basePath ("index" ++ ext))) = false := by
      rcases h ext (List.mem_cons_self _ _) with h1 | h1 <;> simp [h1]
    rw [tryIndexLoop, hcond]
    simp only [Bool.false_eq_true, if_false]
    exact ih (fun e he => h e (List.mem_cons_of_mem _ he))

/-- C6: a candidate path matching a configured exclude pattern is treated
as nonexistent at every stage of extension/index resolution: a result
returned by `tryResolveWithExtensions` is never excluded, and a base all
of whose candidate paths (exact, each appended extension, each index
file) are excluded resolves to `none` whatever the filesystem holds. -/
theorem claim6_exclusion :
    (∀ (cfg : Config) (w : World) (basePath r : String),
       tryResolveWithExtensions cfg w basePath = some r →
       shouldExclude cfg r = false) ∧
    (∀ (cfg : Config) (w : World) (basePath : String),
       shouldExclude cfg basePath = true →
       (∀ ext ∈ cfg.extensions, shouldExclude cfg (basePath ++ ext) = true) →
       (∀ ext ∈ cfg.extensions,
         shouldExclude cfg (pathJoin basePath ("index" ++ ext)) = true) →
       tryResolveWithExtensions cfg w basePath = none) := by
  constructor
  · intro cfg w basePath r h
    rw [tryResolveWithExtensions] at h
    by_cases hc : (w.existsSync basePath && !shouldExclude cfg basePath &&
        w.isFile basePath) = true
    · rw [if_pos hc] at h
      cases h
      have := Bool.and_elim_right (Bool.and_elim_left hc)
      exact (Bool.not_eq_true' _).mp this
    · rw [if_neg hc] at h
      rcases he : tryExtsLoop cfg w basePath cfg.extensions with _ | v
      · rw [he] at h
        exact tryIndexLoop_not_excluded cfg w basePath cfg.extensions r h
      · rw [he] at h
        cases h
        exact tryExtsLoop_not_excluded cfg w basePath cfg.extensions r he
  · intro cfg w basePath hb hext hidx
    have hcond : (w.existsSync basePath && !shouldExclude cfg basePath &&
        w.isFile basePath) = false := by simp [hb]
    rw [tryResolveWithExtensions, hcond]
    simp only [Bool.false_eq_true, if_false]
    rw [tryExtsLoop_none_of cfg w basePath cfg.extensions
      (fun e he => Or.inr (hext e he))]
    exact tryIndexLoop_none_of cfg w basePath cfg.extensions
      (fun e he => Or.inr (hidx e he))


/-- C5: `resolveImportPath` applies the strategies in the fixed order
alias match, project-absolute prefix match, relative/filesystem-rooted,
external; the first strategy whose applicability test claims the
specifier determines the result, with no fallthrough to a later
strategy if it fails (its result, possibly `none`, is returned as is). -/
theorem claim5_strategy_order (cfg : Config) (w : World) (sp fromFile : String) :
    (isSvelteAlias cfg sp = true →
      resolveImportPath cfg w sp fromFile = resolveSvelteAlias cfg w sp) ∧
    (isSvelteAlias cfg sp = false → isProjectAbsoluteImport sp = true →
      resolveImportPath cfg w sp fromFile =
        resolveProjectAbsoluteImport cfg w sp) ∧
    (isSvelteAlias cfg sp = false → isProjectAbsoluteImport sp = false →
      (strStartsWith sp "." || strStartsWith sp "/") = true →
      resolveImportPath cfg w sp fromFile =
        resolveRelativeImport cfg w sp fromFile) ∧
    (isSvelteAlias cfg sp = false → isProjectAbsoluteImport sp = false →
      (strStartsWith sp "." || strStartsWith sp "/") = false →
      resolveImportPath cfg w sp fromFile =
        if cfg.includeExternal then w.requireResolve sp (dirname fromFile)
        else none) := by
  refine ⟨fun h1 => ?_, fun h1 h2 => ?_, fun h1 h2 h3 => ?_, fun h1 h2 h3 => ?_⟩
  · rw [resolveImportPath, if_pos h1]
  · rw [resolveImportPath, if_neg (by simp [h1]), if_pos h2]
  · rw [resolveImportPath, if_neg (by simp [h1]), if_neg (by simp [h2]),
      if_pos h3]
  · rw [resolveImportPath, if_neg (by simp [h1]), if_neg (by simp [h2]),
      if_neg (by simp [h3])]
    cases hinc : cfg.includeExternal <;> simp [hinc]

lemma resolveSvelteAliasAux_lib_head (cfg : Config) (w : World) (sp : String)
    (rest : List (String × String)) (hsp : strStartsWith sp "$lib" = true) :
    resolveSvelteAliasAux cfg w sp (("$lib", "src/lib") :: rest) =
      tryResolveWithExtensions cfg w
        (pathResolve cfg.rootDir ("src/lib" ++ sp.drop 4)) := by
  rw [resolveSvelteAliasAux, if_pos hsp]
  rw [show strStartsWith "src/lib" "@sveltejs/kit" = false from rfl]
  simp only [Bool.false_eq_true, if_false]
  rfl


lemma tryExtsLoop_cons_hit (cfg : Config) (w : World) (basePath ext : String)
    (rest : List String) (h1 : w.existsSync (basePath ++ ext) = true)
    (h2 : shouldExclude cfg (basePath ++ ext) = false) :
    tryExtsLoop cfg w basePath (ext :: rest) = some (basePath ++ ext) := by
  rw [tryExtsLoop]
  simp [h1, h2]

lemma tryIndexLoop_cons_hit (cfg : Config) (w : World) (basePath ext : String)
    (rest : List String)
    (h1 : w.existsSync (pathJoin basePath ("index" ++ ext)) = true)
    (h2 : shouldExclude cfg (pathJoin basePath ("index" ++ ext)) = false) :
    tryIndexLoop cfg w basePath (ext :: rest) =
      some (pathJoin basePath ("index" ++ ext)) := by
  rw [tryIndexLoop]
  simp [h1, h2]

/-- C7: with alias table `{"$lib": "src/lib"}` and root `R`, resolving
`"$lib/x"` from any origin file yields `R/src/lib/x.ts` when that file
exists and is not excluded (given no extensionless entry `R/src/lib/x`),
else the index path `R/src/lib/x/index.ts` under the analogous
conditions, else `none` — following the shared order: exact path, each
configured extension in priority order, then `index.<ext>` in the same
order. -/
theorem claim7_alias_resolution (md : Option Int) (R : String) (inc : Bool)
    (mcl : Nat) (ps : List (String → Bool)) (w : World) (origin : String)
    (hbase : w.existsSync (pathResolve R "src/lib/x") = false) :
    (w.existsSync (pathResolve R "src/lib/x" ++ ".ts") = true →
     shouldExclude (libCfg md R inc mcl ps)
       (pathResolve R "src/lib/x" ++ ".ts") = false →
     resolveImportPath (libCfg md R inc mcl ps) w "$lib/x" origin =
       some (pathResolve R "src/lib/x" ++ ".ts")) ∧
    ((∀ ext ∈ defaultExtensions,
        w.existsSync (pathResolve R "src/lib/x" ++ ext) = false) →
     w.existsSync (pathJoin (pathResolve R "src/lib/x") "index.ts") = true →
     shouldExclude (libCfg md R inc mcl ps)
       (pathJoin (pathResolve R "src/lib/x") "index.ts") = false →
     resolveImportPath (libCfg md R inc mcl ps) w "$lib/x" origin =
       some (pathJoin (pathResolve R "src/lib/x") "index.ts")) ∧
    ((∀ ext ∈ defaultExtensions,
        w.existsSync (pathResolve R "src/lib/x" ++ ext) = false) →
     (∀ ext ∈ defaultExtensions,
        w.existsSync (pathJoin (pathResolve R "src/lib/x") ("index" ++ ext)) =
          false) →
     resolveImportPath (libCfg md R inc mcl ps) w "$lib/x" origin = none) := by
  have hal : isSvelteAlias (libCfg md R inc mcl ps) "$lib/x" = true := rfl
  have hres : resolveImportPath (libCfg md R inc mcl ps) w "$lib/x" origin =
      tryResolveWithExtensions (libCfg md R inc mcl ps) w
        (pathResolve R "src/lib/x") := by
    rw [resolveImportPath, if_pos hal, resolveSvelteAlias]
    rw [show (libCfg md R inc mcl ps).svelteAliases =
      ("$lib", "src/lib") :: [] from rfl]
    exact resolveSvelteAliasAux_lib_head _ w _ _ rfl
  have hcond : (w.existsSync (pathResolve R "src/lib/x") &&
      !shouldExclude (libCfg md R inc mcl ps) (pathResolve R "src/lib/x") &&
      w.isFile (pathResolve R "src/lib/x")) = false := by
    simp [hbase]
  refine ⟨fun hts hexcl => ?_, fun hexts hidx hexcl => ?_,
    fun hexts hidxs => ?_⟩
  · rw [hres, tryResolveWithExtensions, hcond]
    simp only [Bool.false_eq_true, if_false]
    rw [show (libCfg md R inc mcl ps).extensions =
      ".ts" :: [".tsx", ".js", ".jsx", ".json", ".mjs", ".cjs", ".d.ts",
        ".svelte"] from rfl]
    rw [tryExtsLoop_cons_hit _ w _ _ _ hts hexcl]
  · rw [hres, tryResolveWithExtensions, hcond]
    simp only [Bool.false_eq_true, if_false]
    rw [show (libCfg md R inc mcl ps).extensions = defaultExtensions from rfl]
    rw [tryExtsLoop_none_of _ w _ defaultExtensions
      (fun e he => Or.inl (hexts e he))]
    rw [defaultExtensions]
    exact tryIndexLoop_cons_hit _ w _ _ _ hidx hexcl
  · rw [hres, tryResolveWithExtensions, hcond]
    simp only [Bool.false_eq_true, if_false]
    rw [show (libCfg md R inc mcl ps).extensions = defaultExtensions from rfl]
    rw [tryExtsLoop_none_of _ w _ defaultExtensions
      (fun e he => Or.inl (hexts e he))]
    exact tryIndexLoop_none_of _ w _ defaultExtensions
      (fun e he => Or.inl (hidxs e he))

/-- C10: alias applicability is plain string-prefix matching with no
path-segment-boundary check: any specifier whose text merely begins with
`$lib` (under the default alias table) is claimed by the alias strategy
and resolved against the root joined with `src/lib` concatenated with
the remaining characters, through extension/index resolution — never
reaching the project-absolute, relative or external strategies. -/
theorem claim10_alias_prefix_match (md : Option Int) (R : String) (inc : Bool)
    (mcl : Nat) (exts : List String) (ps : List (String → Bool))
    (w : World) (sp origin : String)
    (hsp : strStartsWith sp "$lib" = true) :
    resolveImportPath ⟨md, R, inc, mcl, exts, ps, defaultSvelteAliases⟩ w
        sp origin =
      tryResolveWithExtensions ⟨md, R, inc, mcl, exts, ps,
          defaultSvelteAliases⟩ w (pathResolve R ("src/lib" ++ sp.drop 4)) := by
  have hal : isSvelteAlias ⟨md, R, inc, mcl, exts, ps, defaultSvelteAliases⟩
      sp = true := by
    simp [isSvelteAlias, defaultSvelteAliases]
    exact Or.inl hsp
  rw [resolveImportPath, if_pos hal, resolveSvelteAlias]
  exact resolveSvelteAliasAux_lib_head _ w sp _ hsp


lemma extractDeps_zero (cfg : Config) (w : World) (p : String) (d : Nat)
    (s : TState) : extractDeps cfg w 0 p d s = (none, s) := rfl

lemma extractDeps_succ (cfg : Config) (w : World) (fuel : Nat) (p : String)
    (d : Nat) (s : TState) :
    extractDeps cfg w (fuel + 1) p d s =
      extractDepsStep cfg w (fun p2 d2 st => extractDeps cfg w fuel p2 d2 st)
        p d s := rfl

/-- C8: when the current depth exceeds the configured maximum the
traversal returns no node at all (and leaves the state untouched), so
the parent's child list simply omits that position; concretely, with
root `r.ts` importing `a.ts` importing `b.ts` and max depth 1, the tree
is root with single child `a.ts` at depth 1 whose child list is empty,
and `b.ts` appears nowhere. -/
theorem claim8_depth_limit :
    (∀ (cfg : Config) (w : World) (fuel : Nat) (p : String) (d : Nat)
       (s : TState), cfg.depthExceeded d = true →
       extractDeps cfg w fuel p d s = (none, s)) ∧
    (analyze cfgDepth1 w8 10 "/p/r.ts" initState).1.toOption.map
      (fun t => (t.depth, t.dependencies.map
        (fun c => (c.absolutePath, c.depth, c.dependencies.length)))) =
      some (0, [(some "/p/a.ts", 1, 0)]) := by
  constructor
  · intro cfg w fuel p d s h
    cases fuel with
    | zero => rfl
    | succ fuel => rw [extractDeps_succ, extractDepsStep]; simp [h]
  · decide

/-- C9: running the traversal twice on the same instance and root
without resetting state makes the second run return the root as a leaf
with `circular = true` and an empty child list, because the root's
absolute path is still in the visited table at depth 0 from the first
run. -/
theorem claim9_reuse_circular_root :
    (analyze cfgP w8 10 "/p/r.ts"
        (analyze cfgP w8 10 "/p/r.ts" initState).2).1.toOption.map
      (fun t => (t.circular, t.dependencies.length, t.absolutePath, t.depth)) =
      some (true, 0, some "/p/r.ts", 0) ∧
    vLookup (analyze cfgP w8 10 "/p/r.ts" initState).2.visited "/p/r.ts" =
      some 0 := by
  decide

/-- C2 counterexample: analyzing a nonexistent root file does NOT abort;
it returns (`Except.ok`) a `FileNode` with `exists = false`, error
string `File not found`, and no children. -/
theorem claim2_missing_root_counterexample :
    (analyze cfgP w2 5 "/p/missing.ts" initState).1.toOption.map
      (fun t => (t.existsF, t.error, t.dependencies.length, t.depth)) =
      some (some false, some "File not found", 0, 0) := by
  decide

/-- C2 amended: for a missing root (not already visited, depth bound
passing) `analyze` succeeds with the `exists: false` node instead of
failing; the only way `analyze` throws `Could not analyze the file` is
the root-level depth check failing, i.e. a negative configured maximum
depth. -/
theorem claim2_missing_root_node :
    (∀ (cfg : Config) (w : World) (fuel : Nat) (fp : String) (s : TState),
      cfg.depthExceeded 0 = false →
      vLookup s.visited (pathResolve w.cwd fp) = none →
      w.existsSync (pathResolve w.cwd fp) = false →
      analyze cfg w (fuel + 1) fp s =
        (.ok (notFoundNode (pathRelative cfg.rootDir (pathResolve w.cwd fp))
          (pathResolve w.cwd fp) 0), s)) ∧
    (∀ (cfg : Config) (w : World) (fuel : Nat) (fp : String) (s : TState),
      cfg.depthExceeded 0 = true →
      analyze cfg w (fuel + 1) fp s = (.error "Could not analyze the file", s)) := by
  constructor
  · intro cfg w fuel fp s h1 h2 h3
    rw [analyze, extractDeps_succ, extractDepsStep]
    simp [h1, h2, h3]
  · intro cfg w fuel fp s h1
    rw [analyze, extractDeps_succ, extractDepsStep]
    simp [h1]

/-- Witness for C2: the missing-root node and the negative-depth abort
at concrete inputs. -/
theorem claim2_missing_root_node_witness :
    analyze cfgP w2 5 "/p/missing.ts" initState =
      (.ok (notFoundNode "missing.ts" "/p/missing.ts" 0), initState) ∧
    analyze cfgNeg w2 5 "/p/missing.ts" initState =
      (.error "Could not analyze the file", initState) :=
  ⟨claim2_missing_root_node.1 cfgP w2 4 "/p/missing.ts" initState
      (by decide) (by decide) (by decide),
   claim2_missing_root_node.2 cfgNeg w2 4 "/p/missing.ts" initState (by decide)⟩

/-- Witness for C8: the depth-exceeded branch at a concrete input. -/
theorem claim8_depth_limit_witness :
    extractDeps cfgDepth1 w8 7 "/p/b.ts" 2 initState = (none, initState) :=
  claim8_depth_limit.1 cfgDepth1 w8 7 "/p/b.ts" 2 initState (by decide)

/-- Witness for C5: one concrete specifier per strategy. -/
theorem claim5_strategy_order_witness :
    resolveImportPath cfgP w0 "$lib/a" "/p/f.ts" =
      resolveSvelteAlias cfgP w0 "$lib/a" ∧
    resolveImportPath cfgP w0 "src/a" "/p/f.ts" =
      resolveProjectAbsoluteImport cfgP w0 "src/a" ∧
    resolveImportPath cfgP w0 "./a" "/p/f.ts" =
      resolveRelativeImport cfgP w0 "./a" "/p/f.ts" ∧
    resolveImportPath cfgP w0 "lodash" "/p/f.ts" =
      (if cfgP.includeExternal then w0.requireResolve "lodash"
        (dirname "/p/f.ts") else none) :=
  ⟨(claim5_strategy_order cfgP w0 "$lib/a" "/p/f.ts").1 (by decide),
   (claim5_strategy_order cfgP w0 "src/a" "/p/f.ts").2.1 (by decide) (by decide),
   (claim5_strategy_order cfgP w0 "./a" "/p/f.ts").2.2.1 (by decide)
     (by decide) (by decide),
   (claim5_strategy_order cfgP w0 "lodash" "/p/f.ts").2.2.2 (by decide)
     (by decide) (by decide)⟩

/-- Witness for C6: a resolvable file is not excluded; under an
exclude-everything configuration the same existing file resolves to
`none`. -/
theorem claim6_exclusion_witness :
    shouldExclude cfgP "/p/x" = false ∧
    tryResolveWithExtensions cfgExclAll w6 "/p/x" = none :=
  ⟨claim6_exclusion.1 cfgP w6 "/p/x" "/p/x" (by decide),
   claim6_exclusion.2 cfgExclAll w6 "/p/x" (by decide) (by decide) (by decide)⟩

/-- Witness for C7: the three alias-resolution outcomes at root
`/proj`. -/
theorem claim7_alias_resolution_witness :
    resolveImportPath (libCfg none "/proj" false 100000 []) w7a "$lib/x"
      "/proj/src/f.ts" = some "/proj/src/lib/x.ts" ∧
    resolveImportPath (libCfg none "/proj" false 100000 []) w7b "$lib/x"
      "/proj/src/f.ts" = some "/proj/src/lib/x/index.ts" ∧
    resolveImportPath (libCfg none "/proj" false 100000 []) w0 "$lib/x"
      "/proj/src/f.ts" = none :=
  ⟨(claim7_alias_resolution none "/proj" false 100000 [] w7a "/proj/src/f.ts"
      (by decide)).1 (by decide) (by decide),
   (claim7_alias_resolution none "/proj" false 100000 [] w7b "/proj/src/f.ts"
      (by decide)).2.1 (by decide) (by decide) (by decide),
   (claim7_alias_resolution none "/proj" false 100000 [] w0 "/proj/src/f.ts"
      (by decide)).2.2 (by decide) (by decide)⟩

/-- Witness for C10: `"$libfoo"` is claimed by the `$lib` alias and
resolved under `root/src/libfoo`. -/
theorem claim10_alias_prefix_match_witness :
    resolveImportPath ⟨none, "/r", false, 100000, defaultExtensions, [],
        defaultSvelteAliases⟩ w0 "$libfoo" "/r/f.ts" =
      tryResolveWithExtensions ⟨none, "/r", false, 100000, defaultExtensions,
        [], defaultSvelteAliases⟩ w0
        (pathResolve "/r" ("src/lib" ++ "$libfoo".drop 4)) ∧
    pathResolve "/r" ("src/lib" ++ "$libfoo".drop 4) = "/r/src/libfoo" :=
  ⟨claim10_alias_prefix_match none "/r" false 100000 defaultExtensions []
      w0 "$libfoo" "/r/f.ts" (by decide),
   by decide⟩


lemma setOriginalImport_circular (n : FileNode) (imp : String) :
    (setOriginalImport n imp).circular = n.circular := by
  cases n; rfl

lemma setOriginalImport_external (n : FileNode) (imp : String) :
    (setOriginalImport n imp).external = n.external := by
  cases n; rfl

lemma setOriginalImport_dependencies (n : FileNode) (imp : String) :
    (setOriginalImport n imp).dependencies = n.dependencies := by
  cases n; rfl

lemma extractDeps_fst_circular_false (cfg : Config) (w : World) (fuel : Nat)
    (p : String) (d : Nat) (s : TState)
    (hp : vLookup s.visited (pathResolve w.cwd p) = none) :
    ∀ n, (extractDeps cfg w fuel p d s).1 = some n → n.circular = false := by
  intro n h
  cases fuel with
  | zero => rw [extractDeps_zero] at h; simp at h
  | succ fuel =>
    rw [extractDeps_succ, extractDepsStep] at h
    simp only [hp] at h
    by_cases hd : cfg.depthExceeded d = true
    · simp [hd] at h
    · simp only [hd, Bool.false_eq_true, if_false] at h
      by_cases hex : w.existsSync (pathResolve w.cwd p) = true
      · simp only [hex, Bool.not_true, Bool.false_eq_true, if_false] at h
        simp only [Option.some.injEq] at h
        subst h
        rfl
      · simp only [Bool.not_eq_true] at hex
        simp only [hex, Bool.not_false, if_true] at h
        simp only [Option.some.injEq] at h
        subst h
        rfl

lemma extractDeps_fst_external_false (cfg : Config) (w : World) (fuel : Nat)
    (p : String) (d : Nat) (s : TState) :
    ∀ n, (extractDeps cfg w fuel p d s).1 = some n → n.external = false := by
  intro n h
  cases fuel with
  | zero => rw [extractDeps_zero] at h; simp at h
  | succ fuel =>
    rw [extractDeps_succ, extractDepsStep] at h
    by_cases hd : cfg.depthExceeded d = true
    · simp [hd] at h
    · rcases hv : vLookup s.visited (pathResolve w.cwd p) with _ | dv
      · by_cases hex : w.existsSync (pathResolve w.cwd p) = true
        · simp [hd, hv, hex] at h
          subst h
          rfl
        · simp only [Bool.not_eq_true] at hex
          simp [hd, hv, hex] at h
          subst h
          rfl
      · by_cases hle : dv ≤ d
        · simp [hd, hv, hle] at h
          subst h
          rfl
        · by_cases hex : w.existsSync (pathResolve w.cwd p) = true
          · simp [hd, hv, hle, hex] at h
            subst h
            rfl
          · simp only [Bool.not_eq_true] at hex
            simp [hd, hv, hle, hex] at h
            subst h
            rfl


/-- C1 counterexample: in the diamond world, `x.ts` is fully expanded
at depth 3 (as a non-circular node under `b.ts`), yet when the root's
own edge to it is discovered at depth 1 — a non-cyclic edge to a file
visited only at a strictly greater depth — the produced node is
nevertheless marked `circular = true`. -/
theorem claim1_circular_depth_counterexample :
    ((analyze cfgP w1 10 "/p/r.ts" initState).1.toOption.map
      (fun t => t.dependencies.map
        (fun c => (c.absolutePath, c.circular, c.depth))) =
      some [(some "/p/a.ts", false, 1), (some "/p/x.ts", true, 1)]) ∧
    (((((analyze cfgP w1 10 "/p/r.ts" initState).1.toOption.bind
        (fun t => t.dependencies.get? 0)).bind
        (fun a => a.dependencies.get? 0)).bind
        (fun b => b.dependencies.get? 0)).map
      (fun c => (c.absolutePath, c.circular, c.depth,
        c.dependencies.length)) = some (some "/p/x.ts", false, 3, 0)) := by
  decide

/-- C1 amended: the node pushed when an edge is discovered carries
`circular = true` iff the resolved target's absolute path is present in
the visited table at ANY depth (the edge-site check `visited.has` makes
no depth comparison), and every such circular node has an empty child
list. -/
theorem claim1_circular_at_edge_iff (cfg : Config) (w : World) (fuel : Nat)
    (pAbs pRel : String) (d : Nat) (deps : List FileNode) (s : TState)
    (imp : String)
    (hcanon : ∀ r, resolveImportPath cfg w imp pAbs = some r →
      pathResolve w.cwd r = r) :
    ∀ n, (processImport (fun p2 d2 st => extractDeps cfg w fuel p2 d2 st)
        cfg w pAbs pRel d (deps, s) imp).1 = deps ++ [n] →
      ((n.circular = true ↔ ∃ r, resolveImportPath cfg w imp pAbs = some r ∧
          vContains s.visited r = true) ∧
       (n.circular = true → n.dependencies = [])) := by
  intro n hn
  rw [processImport] at hn
  rcases hres : resolveImportPath cfg w imp pAbs with _ | r
  · simp only [hres] at hn
    cases hinc : cfg.includeExternal
    · simp [hinc] at hn
    · simp only [hinc, if_true] at hn
      have h2 := List.append_cancel_left hn
      simp only [List.cons.injEq, and_true] at h2
      subst h2
      constructor
      · simp [externalNode, FileNode.circular, hres]
      · intro hc
        simp [externalNode, FileNode.circular] at hc
  · simp only [hres] at hn
    cases hvc : vContains s.visited r
    · simp only [hvc, Bool.false_eq_true, if_false] at hn
      rcases he : extractDeps cfg w fuel r (d + 1) s with ⟨t, s1⟩
      simp only [he] at hn
      cases t with
      | none => simp at hn
      | some child =>
        have h2 := List.append_cancel_left hn
        simp only [List.cons.injEq, and_true] at h2
        subst h2
        have hvl : vLookup s.visited (pathResolve w.cwd r) = none := by
          rw [hcanon r hres]
          rcases hvl2 : vLookup s.visited r with _ | v
          · rfl
          · rw [vContains, hvl2] at hvc
            simp at hvc
        have hchild : (extractDeps cfg w fuel r (d + 1) s).1 = some child := by
          rw [he]
        have hcf := extractDeps_fst_circular_false cfg w fuel r (d + 1) s hvl
          child hchild
        rw [setOriginalImport_circular, hcf]
        constructor
        · constructor
          · intro hfalse
            cases hfalse
          · rintro ⟨r2, hr2, hc2⟩
            injection hr2 with hr3
            subst hr3
            rw [hvc] at hc2
            cases hc2
        · intro hfalse
          cases hfalse
    · simp only [hvc, if_true] at hn
      have h2 := List.append_cancel_left hn
      simp only [List.cons.injEq, and_true] at h2
      subst h2
      refine ⟨?_, ?_⟩
      · simp only [circularEdgeNode, FileNode.circular, true_iff]
        exact ⟨r, rfl, hvc⟩
      · intro _
        rfl

/-- Witness for C1 amended: a visited target produces the circular
leaf. -/
theorem claim1_circular_at_edge_iff_witness :
    (circularEdgeNode "x.ts" "/p/x.ts" "./x" 1).circular = true ∧
    (circularEdgeNode "x.ts" "/p/x.ts" "./x" 1).dependencies = [] := by
  have hcanon : ∀ r, resolveImportPath cfgP w1 "./x" "/p/r.ts" = some r →
      pathResolve w1.cwd r = r := by
    intro r hr
    rw [show resolveImportPath cfgP w1 "./x" "/p/r.ts" = some "/p/x.ts"
      from by decide] at hr
    injection hr with hr2
    subst hr2
    decide
  have h := claim1_circular_at_edge_iff cfgP w1 5 "/p/r.ts" "r.ts" 0 []
    ⟨[("/p/x.ts", 3)], [], [], []⟩ "./x" hcanon
    (circularEdgeNode "x.ts" "/p/x.ts" "./x" 1) rfl
  refine ⟨h.1.mpr ⟨"/p/x.ts", by decide, by decide⟩, h.2 ?_⟩
  exact h.1.mpr ⟨"/p/x.ts", by decide, by decide⟩

/-- C3 counterexample: with external inclusion enabled, the specifier
whose host resolution succeeds (`pkg`) is materialized as an ordinary
expanded node with `external = false`, while the one whose host
resolution fails (`ghost`) becomes the `external = true` leaf and the
unresolved set stays empty — the opposite of the claim. -/
theorem claim3_external_counterexample :
    ((analyze cfgExt w3 10 "/p/r.ts" initState).1.toOption.map
      (fun t => t.dependencies.map (fun c => (c.path, c.absolutePath,
        c.external, c.existsF, c.dependencies.length))) =
      some [("node_modules/pkg/index.js",
        some "/p/node_modules/pkg/index.js", false, some true, 0),
        ("ghost", none, true, none, 0)]) ∧
    (analyze cfgExt w3 10 "/p/r.ts" initState).2.unresolved = [] :=
  ⟨rfl, rfl⟩

/-- C3 amended: when external inclusion is enabled, a specifier for
which the resolver returned `null` is materialized as an unexpanded leaf
with `external = true` and no absolute path, leaving the state (and in
particular the unresolved set) unchanged; a specifier for which the
resolver returned a path is processed as an ordinary node, never as an
external leaf. -/
theorem claim3_external_handling (cfg : Config) (w : World) (fuel : Nat)
    (pAbs pRel : String) (d : Nat) (deps : List FileNode) (s : TState)
    (imp : String) (hinc : cfg.includeExternal = true) :
    (resolveImportPath cfg w imp pAbs = none →
      processImport (fun p2 d2 st => extractDeps cfg w fuel p2 d2 st) cfg w
        pAbs pRel d (deps, s) imp =
        (deps ++ [externalNode imp (d + 1)], s)) ∧
    (∀ r n, resolveImportPath cfg w imp pAbs = some r →
      (processImport (fun p2 d2 st => extractDeps cfg w fuel p2 d2 st) cfg w
        pAbs pRel d (deps, s) imp).1 = deps ++ [n] →
      n.external = false) := by
  constructor
  · intro hres
    rw [processImport]
    simp only [hres, hinc, if_true]
  · intro r n hres hn
    rw [processImport] at hn
    simp only [hres] at hn
    cases hvc : vContains s.visited r
    · simp only [hvc, Bool.false_eq_true, if_false] at hn
      rcases he : extractDeps cfg w fuel r (d + 1) s with ⟨t, s1⟩
      simp only [he] at hn
      cases t with
      | none => simp at hn
      | some child =>
        have h2 := List.append_cancel_left hn
        simp only [List.cons.injEq, and_true] at h2
        subst h2
        have hchild : (extractDeps cfg w fuel r (d + 1) s).1 = some child := by
          rw [he]
        rw [setOriginalImport_external]
        exact extractDeps_fst_external_false cfg w fuel r (d + 1) s child hchild
    · simp only [hvc, if_true] at hn
      have h2 := List.append_cancel_left hn
      simp only [List.cons.injEq, and_true] at h2
      subst h2
      rfl

/-- Witness for C3 amended: the failed host resolution of `ghost`
yields the external leaf with untouched state. -/
theorem claim3_external_handling_witness :
    processImport (fun p2 d2 st => extractDeps cfgExt w3 5 p2 d2 st) cfgExt w3
      "/p/r.ts" "r.ts" 0 ([], initState) "ghost" =
      ([externalNode "ghost" 1], initState) :=
  (claim3_external_handling cfgExt w3 5 "/p/r.ts" "r.ts" 0 [] initState
    "ghost" rfl).1 (by decide)


lemma vLookup_vSet_self (l : List (String × Nat)) (k : String) (v : Nat) :
    vLookup (vSet l k v) k = some v := by
  induction l with
  | nil => simp [vSet, vLookup]
  | cons e rest ih =>
    by_cases he : e.1 = k
    · rw [vSet, if_pos he, vLookup, if_pos rfl]
    · rw [vSet, if_neg he, vLookup, if_neg he]
      exact ih

lemma vLookup_vSet_ne (l : List (String × Nat)) (k k2 : String) (v : Nat)
    (h : k2 ≠ k) : vLookup (vSet l k v) k2 = vLookup l k2 := by
  induction l with
  | nil => simp [vSet, vLookup, Ne.symm h]
  | cons e rest ih =>
    by_cases he : e.1 = k
    · rw [vSet, if_pos he, vLookup, vLookup,
        if_neg (fun hh => h hh.symm),
        if_neg (fun hh => h ((he.symm.trans hh).symm))]
    · rw [vSet, if_neg he, vLookup, vLookup]
      by_cases h2 : e.1 = k2
      · rw [if_pos h2, if_pos h2]
      · rw [if_neg h2, if_neg h2]
        exact ih

lemma fold_preserves_visited (cfg : Config) (w : World)
    (expand : String → Nat → TState → Option FileNode × TState)
    (pAbs pRel : String) (d : Nat)
    (hexp : ∀ imp r d2 st k v, resolveImportPath cfg w imp pAbs = some r →
      vContains st.visited r = false → vLookup st.visited k = some v →
      vLookup ((expand r d2 st).2).visited k = some v) :
    ∀ (imps : List String) (acc : List FileNode × TState) (k : String)
      (v : Nat), vLookup acc.2.visited k = some v →
      vLookup ((imps.foldl (processImport expand cfg w pAbs pRel d)
        acc).2).visited k = some v := by
  intro imps
  induction imps with
  | nil => intro acc k v h; exact h
  | cons imp rest ih =>
    intro acc k v h
    rw [List.foldl_cons]
    apply ih
    rw [processImport]
    rcases hres : resolveImportPath cfg w imp pAbs with _ | r
    · cases hinc : cfg.includeExternal
      · simp only [hinc, Bool.false_eq_true, if_false]
        exact h
      · simp only [hinc, if_true]
        exact h
    · cases hvc : vContains acc.2.visited r
      · simp only [hvc, Bool.false_eq_true, if_false]
        rcases he : expand r (d + 1) acc.2 with ⟨t, s1⟩
        have hkv : vLookup s1.visited k = some v := by
          have h2 := hexp imp r (d + 1) acc.2 k v hres hvc h
          rw [he] at h2
          exact h2
        cases t
        · exact hkv
        · exact hkv
      · simp only [hvc, if_true]
        exact h

lemma extractDeps_preserves_visited (cfg : Config) (w : World)
    (hcanon : ∀ sp f r, resolveImportPath cfg w sp f = some r →
      pathResolve w.cwd r = r) :
    ∀ (fuel : Nat) (p : String) (d : Nat) (s : TState) (k : String) (v : Nat),
      vLookup s.visited (pathResolve w.cwd p) = none →
      vLookup s.visited k = some v →
      vLookup ((extractDeps cfg w fuel p d s).2).visited k = some v := by
  intro fuel
  induction fuel with
  | zero => intro p d s k v hp hk; rw [extractDeps_zero]; exact hk
  | succ fuel ih =>
    intro p d s k v hp hk
    rw [extractDeps_succ, extractDepsStep]
    simp only [hp]
    by_cases hd : cfg.depthExceeded d = true
    · simp only [hd, if_true]
      exact hk
    · by_cases hex : w.existsSync (pathResolve w.cwd p) = true
      · simp only [hd, hex, Bool.not_true, Bool.false_eq_true, if_false]
        have hne : k ≠ pathResolve w.cwd p := by
          intro hkk
          rw [hkk, hp] at hk
          cases hk
        have hk1 : vLookup (vSet s.visited (pathResolve w.cwd p) d) k =
            some v := by
          rw [vLookup_vSet_ne _ _ _ _ hne]
          exact hk
        exact fold_preserves_visited cfg w _ (pathResolve w.cwd p)
          (pathRelative cfg.rootDir (pathResolve w.cwd p)) d
          (fun imp r d2 st k2 v2 hres hvc hk2 =>
            ih r d2 st k2 v2
              (by
                rw [hcanon imp (pathResolve w.cwd p) r hres]
                rcases hvl2 : vLookup st.visited r with _ | vv
                · rfl
                · rw [vContains, hvl2] at hvc
                  cases hvc)
              hk2)
          _ _ k v hk1
      · simp only [Bool.not_eq_true] at hex
        simp only [hd, hex, Bool.not_false, Bool.false_eq_true, if_false,
          if_true]
        exact hk


/-- C4 counterexample: entering the traversal with `/p/a.ts` recorded
in the visited table at depth 2 while the current depth is 0 produces a
full re-expanded node (`exists = true`, non-circular) and lowers the
visited entry to 0 — the claim said no node would be produced and the
entry would not be lowered. -/
theorem claim4_greater_depth_counterexample :
    ((extractDeps cfgP w4 5 "/p/a.ts" 0 s4).1.map
      (fun n => (n.existsF, n.circular, n.depth, n.dependencies.length)) =
      some (some true, false, 0, 0)) ∧
    vLookup (extractDeps cfgP w4 5 "/p/a.ts" 0 s4).2.visited "/p/a.ts" =
      some 0 := by
  decide

/-- C4 amended: if at entry the absolute path is visited at a strictly
greater depth than the current one, the visited guard does not fire: the
file is re-expanded into a full node at the current depth and its
visited entry is overwritten with the smaller current depth (and stays
there through the subtree expansion). -/
theorem claim4_greater_depth_reexpands (cfg : Config) (w : World) (fuel : Nat)
    (fp : String) (d dv : Nat) (s : TState)
    (hcanon : ∀ sp f r, resolveImportPath cfg w sp f = some r →
      pathResolve w.cwd r = r)
    (hd : cfg.depthExceeded d = false)
    (hv : vLookup s.visited (pathResolve w.cwd fp) = some dv)
    (hgt : d < dv)
    (hex : w.existsSync (pathResolve w.cwd fp) = true) :
    ∃ n s2, extractDeps cfg w (fuel + 1) fp d s = (some n, s2) ∧
      n.circular = false ∧ n.existsF = some true ∧ n.depth = d ∧
      vLookup s2.visited (pathResolve w.cwd fp) = some d := by
  rw [extractDeps_succ, extractDepsStep]
  have hnle : ¬(dv ≤ d) := not_le.mpr hgt
  simp only [hv, hd, hex, decide_eq_false hnle, Bool.not_true,
    Bool.false_eq_true, if_false]
  refine ⟨_, _, rfl, rfl, rfl, rfl, ?_⟩
  have hk1 : vLookup (vSet s.visited (pathResolve w.cwd fp) d)
      (pathResolve w.cwd fp) = some d := vLookup_vSet_self _ _ _
  exact fold_preserves_visited cfg w _ (pathResolve w.cwd fp)
    (pathRelative cfg.rootDir (pathResolve w.cwd fp)) d
    (fun imp r d2 st k2 v2 hres hvc hk2 =>
      extractDeps_preserves_visited cfg w hcanon fuel r d2 st k2 v2
        (by
          rw [hcanon imp (pathResolve w.cwd fp) r hres]
          rcases hvl2 : vLookup st.visited r with _ | vv
          · rfl
          · rw [vContains, hvl2] at hvc
            cases hvc)
        hk2)
    _ _ _ _ hk1

lemma tryExtsLoop_some_exists (cfg : Config) (w : World) (basePath : String) :
    ∀ (l : List String) (r : String), tryExtsLoop cfg w basePath l = some r →
      w.existsSync r = true := by
  intro l
  induction l with
  | nil => intro r h; simp [tryExtsLoop] at h
  | cons ext rest ih =>
    intro r h
    by_cases hc : (w.existsSync (basePath ++ ext) &&
        !shouldExclude cfg (basePath ++ ext)) = true
    · rw [tryExtsLoop, if_pos hc] at h
      cases h
      exact Bool.and_elim_left hc
    · rw [tryExtsLoop, if_neg hc] at h
      exact ih r h

lemma tryIndexLoop_some_exists (cfg : Config) (w : World) (basePath : String) :
    ∀ (l : List String) (r : String), tryIndexLoop cfg w basePath l = some r →
      w.existsSync r = true := by
  intro l
  induction l with
  | nil => intro r h; simp [tryIndexLoop] at h
  | cons ext rest ih =>
    intro r h
    by_cases hc : (w.existsSync (pathJoin basePath ("index" ++ ext)) &&
        !shouldExclude cfg (pathJoin basePath ("index" ++ ext))) = true
    · rw [tryIndexLoop, if_pos hc] at h
      cases h
      exact Bool.and_elim_left hc
    · rw [tryIndexLoop, if_neg hc] at h
      exact ih r h

lemma tryResolve_some_exists (cfg : Config) (w : World) (basePath r : String)
    (h : tryResolveWithExtensions cfg w basePath = some r) :
    w.existsSync r = true := by
  rw [tryResolveWithExtensions] at h
  by_cases hc : (w.existsSync basePath && !shouldExclude cfg basePath &&
      w.isFile basePath) = true
  · rw [if_pos hc] at h
    cases h
    exact Bool.and_elim_left (Bool.and_elim_left hc)
  · rw [if_neg hc] at h
    rcases he : tryExtsLoop cfg w basePath cfg.extensions with _ | v
    · rw [he] at h
      exact tryIndexLoop_some_exists cfg w basePath cfg.extensions r h
    · rw [he] at h
      cases h
      exact tryExtsLoop_some_exists cfg w basePath cfg.extensions r he

lemma resolveSvelteAliasAux_some_cases (cfg : Config) (w : World)
    (ip : String) :
    ∀ (l : List (String × String)) (r : String),
      resolveSvelteAliasAux cfg w ip l = some r →
      w.existsSync r = true ∨ ∃ t, w.requireResolveBare t = some r := by
  intro l
  induction l with
  | nil => intro r h; simp [resolveSvelteAliasAux] at h
  | cons e rest ih =>
    intro r h
    rcases e with ⟨key, target⟩
    rw [resolveSvelteAliasAux] at h
    by_cases hk : strStartsWith ip key = true
    · rw [if_pos hk] at h
      by_cases ht : strStartsWith target "@sveltejs/kit" = true
      · rw [if_pos ht] at h
        cases hinc : cfg.includeExternal
        · rw [hinc] at h
          simp at h
        · rw [hinc, if_pos rfl] at h
          exact Or.inr ⟨target, h⟩
      · rw [if_neg ht] at h
        exact Or.inl (tryResolve_some_exists cfg w _ r h)
    · rw [if_neg hk] at h
      exact ih r h

lemma resolveProjAbsAux_some_exists (cfg : Config) (w : World) (ip : String) :
    ∀ (l : List String) (r : String), resolveProjAbsAux cfg w ip l = some r →
      w.existsSync r = true := by
  intro l
  induction l with
  | nil => intro r h; simp [resolveProjAbsAux] at h
  | cons root rest ih =>
    intro r h
    rw [resolveProjAbsAux] at h
    by_cases hr : (!w.existsSync root) = true
    · rw [if_pos hr] at h
      exact ih r h
    · rw [if_neg hr] at h
      rcases he : tryResolveWithExtensions cfg w (pathResolve root ip)
        with _ | v
      · rw [he] at h
        exact ih r h
      · rw [he] at h
        cases h
        exact tryResolve_some_exists cfg w _ r he

lemma resolveImportPath_some_cases (cfg : Config) (w : World)
    (sp f r : String) (h : resolveImportPath cfg w sp f = some r) :
    w.existsSync r = true ∨ (∃ t, w.requireResolveBare t = some r) ∨
      (∃ a b, w.requireResolve a b = some r) := by
  rw [resolveImportPath] at h
  by_cases h1 : isSvelteAlias cfg sp = true
  · rw [if_pos h1] at h
    rcases resolveSvelteAliasAux_some_cases cfg w sp cfg.svelteAliases r h
      with h2 | h2
    · exact Or.inl h2
    · exact Or.inr (Or.inl h2)
  · rw [if_neg h1] at h
    by_cases h2 : isProjectAbsoluteImport sp = true
    · rw [if_pos h2] at h
      exact Or.inl (resolveProjAbsAux_some_exists cfg w sp _ r h)
    · rw [if_neg h2] at h
      by_cases h3 : (strStartsWith sp "." || strStartsWith sp "/") = true
      · rw [if_pos h3] at h
        exact Or.inl (tryResolve_some_exists cfg w _ r h)
      · rw [if_neg h3] at h
        by_cases h4 : (!cfg.includeExternal) = true
        · rw [if_pos h4] at h
          cases h
        · rw [if_neg h4] at h
          exact Or.inr (Or.inr ⟨sp, dirname f, h⟩)

/-- Witness for C4 amended: the re-expansion at the concrete reused
state. -/
theorem claim4_greater_depth_reexpands_witness :
    ∃ n s2, extractDeps cfgP w4 5 "/p/a.ts" 0 s4 = (some n, s2) ∧
      n.circular = false ∧ n.existsF = some true ∧ n.depth = 0 ∧
      vLookup s2.visited (pathResolve w4.cwd "/p/a.ts") = some 0 := by
  have hcanon : ∀ sp f r, resolveImportPath cfgP w4 sp f = some r →
      pathResolve w4.cwd r = r := by
    intro sp f r h
    rcases resolveImportPath_some_cases cfgP w4 sp f r h with h2 | h2 | h2
    · have h3 : r = "/p/a.ts" := of_decide_eq_true h2
      subst h3
      decide
    · rcases h2 with ⟨t, h2⟩
      simp [w4] at h2
    · rcases h2 with ⟨a, b, h2⟩
      simp [w4] at h2
  exact claim4_greater_depth_reexpands cfgP w4 4 "/p/a.ts" 0 2 s4 hcanon
    (by decide) (by decide) (by decide) (by decide)

end DepTree
